import Mathlib

/-!
Verification of the scoring and ingestion pipeline of the
personal-stock-screener backend.

The Python sources are embedded shallowly over `ℚ`:

* `backend/src/scoring/fundamental_scorer.py` → `score_metric`,
  `compute_fundamental_score`;
* `backend/src/sentiment/analyzer.py` → `aggregate_sentiment_score`;
* `backend/src/scoring/composite_scorer.py` → `compute_composite_score`,
  `score_all_stocks`, `get_top_stocks`;
* `backend/src/ingestion/base.py` → `Ingestor.run`, `is_already_ingested`;
* `backend/src/core/config.py` → `mkSettings`, `weights_must_sum_to_one`.

Numeric values are rationals; Python's `round(x, n)` (round half to even)
is modelled by `round2` / `round3`.  Database queries are modelled as pure
functions over explicit record lists.
-/

/-- Round half to even of a rational to the nearest integer, the behaviour
of Python's built-in `round` on exactly representable values. -/
def roundHalfEven (q : ℚ) : ℤ :=
  if q - ⌊q⌋ < 1/2 then ⌊q⌋
  else if (1:ℚ)/2 < q - ⌊q⌋ then ⌊q⌋ + 1
  else if 2 ∣ ⌊q⌋ then ⌊q⌋ else ⌊q⌋ + 1

/-- Python `round(x, 2)`. -/
def round2 (q : ℚ) : ℚ := (roundHalfEven (q * 100) : ℚ) / 100

/-- Python `round(x, 3)`. -/
def round3 (q : ℚ) : ℚ := (roundHalfEven (q * 1000) : ℚ) / 1000

lemma floor_le_roundHalfEven (q : ℚ) : ⌊q⌋ ≤ roundHalfEven q := by
  unfold roundHalfEven; split_ifs <;> omega

lemma roundHalfEven_le_floor_add_one (q : ℚ) : roundHalfEven q ≤ ⌊q⌋ + 1 := by
  unfold roundHalfEven; split_ifs <;> omega

lemma roundHalfEven_mono {a b : ℚ} (h : a ≤ b) :
    roundHalfEven a ≤ roundHalfEven b := by
  have hf : ⌊a⌋ ≤ ⌊b⌋ := Int.floor_mono h
  by_cases heq : ⌊a⌋ = ⌊b⌋
  · unfold roundHalfEven
    rw [heq]
    have hab : a - (⌊b⌋ : ℚ) ≤ b - (⌊b⌋ : ℚ) := by linarith
    split_ifs <;> first | omega | linarith
  · have hlt : ⌊a⌋ < ⌊b⌋ := lt_of_le_of_ne hf heq
    calc roundHalfEven a ≤ ⌊a⌋ + 1 := roundHalfEven_le_floor_add_one a
      _ ≤ ⌊b⌋ := by omega
      _ ≤ roundHalfEven b := floor_le_roundHalfEven b

lemma roundHalfEven_intCast (n : ℤ) : roundHalfEven (n : ℚ) = n := by
  unfold roundHalfEven
  rw [Int.floor_intCast]
  have : (n : ℚ) - (n : ℚ) = 0 := by ring
  rw [this]
  norm_num

lemma round2_mono {a b : ℚ} (h : a ≤ b) : round2 a ≤ round2 b := by
  unfold round2
  have h100 : a * 100 ≤ b * 100 := by linarith
  have := roundHalfEven_mono h100
  have hcast : ((roundHalfEven (a * 100) : ℚ)) ≤ (roundHalfEven (b * 100) : ℚ) := by
    exact_mod_cast this
  linarith

lemma round2_idem (q : ℚ) : round2 (round2 q) = round2 q := by
  unfold round2
  rw [div_mul_cancel₀ _ (by norm_num : (100:ℚ) ≠ 0), roundHalfEven_intCast]

/-! ### Fundamental scorer (`backend/src/scoring/fundamental_scorer.py`) -/

/-- One entry of `FundamentalScorer.thresholds`. -/
structure ThresholdCfg where
  excellent : ℚ
  good : ℚ
  weight : ℚ
  inverse : Bool
deriving DecidableEq

/-- `FundamentalScorer.thresholds`, built from the default values of
`config.py` (`PE_RATIO_EXCELLENT = 15.0`, …) together with the literal
thresholds of `fundamental_scorer.py` lines 29-66. -/
def thresholds : List (String × ThresholdCfg) :=
  [("pe_ratio", ⟨15, 25, 15/100, false⟩),
   ("pb_ratio", ⟨2, 3, 10/100, false⟩),
   ("roe", ⟨20, 15, 20/100, false⟩),
   ("debt_to_equity", ⟨1/2, 1, 15/100, true⟩),
   ("current_ratio", ⟨2, 3/2, 10/100, false⟩),
   ("operating_margin", ⟨20/100, 10/100, 15/100, false⟩),
   ("revenue_growth", ⟨20/100, 10/100, 15/100, false⟩)]

/-- `FundamentalScorer.score_metric` (lines 68-110).  `none` stands for
Python `None`; a Python test `value >= t` becomes `t ≤ v`. -/
def score_metric (value : Option ℚ) (excellent_threshold good_threshold : ℚ)
    (inverse : Bool) : ℚ :=
  match value with
  | none => 50
  | some v =>
    if inverse then
      if v ≤ excellent_threshold then 100
      else if v ≤ good_threshold then
        70 + 30 * (1 - (v - excellent_threshold) / (good_threshold - excellent_threshold))
      else max 0 (max 0 (70 - (v - good_threshold) * 20))
    else
      if excellent_threshold ≤ v then 100
      else if good_threshold ≤ v then
        70 + 30 * (v - good_threshold) / (excellent_threshold - good_threshold)
      else max 0 (70 * (v / good_threshold))

/-- A fundamental data record (`models/database.py`, the columns used by the
scorers).  Absent metric values are `none`. -/
structure Fundamental where
  stock_id : ℕ := 0
  data_date : ℤ := 0
  pe_ratio : Option ℚ := none
  pb_ratio : Option ℚ := none
  roe : Option ℚ := none
  debt_to_equity : Option ℚ := none
  current_ratio : Option ℚ := none
  operating_margin : Option ℚ := none
  revenue_growth : Option ℚ := none
deriving DecidableEq

/-- The `metric_mappings` dictionary of `compute_fundamental_score`
(lines 127-135), in insertion order. -/
def metric_mappings (fundamental : Fundamental) : List (String × Option ℚ) :=
  [("pe_ratio", fundamental.pe_ratio),
   ("pb_ratio", fundamental.pb_ratio),
   ("roe", fundamental.roe),
   ("debt_to_equity", fundamental.debt_to_equity),
   ("current_ratio", fundamental.current_ratio),
   ("operating_margin", fundamental.operating_margin),
   ("revenue_growth", fundamental.revenue_growth)]

/-- One value of the `scores` dictionary built by
`compute_fundamental_score`. -/
structure MetricBreakdown where
  value : Option ℚ
  score : ℚ
  weight : ℚ
  weighted_score : ℚ
deriving DecidableEq

/-- Return value of `compute_fundamental_score`. -/
structure FundamentalScoreResult where
  total_score : ℚ
  breakdown : List (String × MetricBreakdown)
  metrics_used : ℕ
  total_weight : ℚ
deriving DecidableEq

/-- `FundamentalScorer.compute_fundamental_score` (lines 112-172).  The
`for` loop over `metric_mappings` with the `if metric_name in
self.thresholds` guard becomes a fold with a `lookup`; the accumulator
carries `scores`, `total_score` and `total_weight`. -/
def compute_fundamental_score (fundamental : Fundamental) : FundamentalScoreResult :=
  let step := fun (acc : List (String × MetricBreakdown) × ℚ × ℚ)
      (m : String × Option ℚ) =>
    match thresholds.lookup m.1 with
    | none => acc
    | some threshold =>
      let score := score_metric m.2 threshold.excellent threshold.good threshold.inverse
      let weighted_score := score * threshold.weight
      (acc.1 ++ [(m.1, ⟨m.2, round2 score, threshold.weight, round2 weighted_score⟩)],
       acc.2.1 + weighted_score, acc.2.2 + threshold.weight)
  let folded := (metric_mappings fundamental).foldl step ([], 0, 0)
  let total_score := folded.2.1
  let total_weight := folded.2.2
  let final_score := if 0 < total_weight then (total_score / total_weight) * 100 else 50
  { total_score := round2 final_score, breakdown := folded.1,
    metrics_used := folded.1.length, total_weight := round2 total_weight }

/-- A snapshot in which exactly one of the seven tracked metrics (ROE) has a
value, sitting exactly at its excellent threshold. -/
def fundamental_roe_only : Fundamental := { roe := some 20 }

unseal Rat.mul Rat.add Rat.sub Rat.inv in
/-- C1: the claim says the total score lies in 0..100 and equals the
weighted sum of the metrics that have data divided by their weights (which
would give 100 here).  The code scores the six absent metrics at the
neutral 50 with their weights still counted and then multiplies the
normalized weighted average by 100, returning 6000. -/
theorem compute_fundamental_score_roe_only_evaluates :
    (compute_fundamental_score fundamental_roe_only).total_score = 6000 ∧
    ¬ (compute_fundamental_score fundamental_roe_only).total_score ≤ 100 ∧
    (compute_fundamental_score fundamental_roe_only).total_score ≠ 100 := by
  refine ⟨?_, ?_, ?_⟩ <;> decide

/-- C2 counterexample: with `excellent = good = 1` (a legal pair of
thresholds under the claim's quantifier) a value exactly at the good
threshold scores 100, not 70. -/
theorem score_metric_good_threshold_cex :
    score_metric (some 1) 1 1 false ≠ 70 := by decide

/-- C2 (amended): an absent value scores 50 and a value at the excellent
threshold scores 100 for every pair of thresholds and both variants; a
value at the good threshold scores 70 provided the thresholds are strictly
ordered the way the variant expects (`good < excellent` for the
non-inverse variant, `excellent < good` for the inverse one). -/
theorem score_metric_threshold_values
    (excellent good : ℚ) (inverse : Bool) :
    score_metric none excellent good inverse = 50 ∧
    score_metric (some excellent) excellent good inverse = 100 ∧
    (good < excellent → score_metric (some good) excellent good false = 70) ∧
    (excellent < good → score_metric (some good) excellent good true = 70) := by
  refine ⟨rfl, ?_, ?_, ?_⟩
  · cases inverse <;> simp [score_metric]
  · intro h
    have h1 : ¬ excellent ≤ good := not_le.mpr h
    have h2 : good ≤ good := le_refl good
    have hne : excellent - good ≠ 0 := sub_ne_zero.mpr (ne_of_gt h)
    simp only [score_metric, if_neg h1, if_pos h2]
    field_simp
  · intro h
    have h1 : ¬ good ≤ excellent := not_le.mpr h
    have h2 : good ≤ good := le_refl good
    have hne : good - excellent ≠ 0 := sub_ne_zero.mpr (ne_of_gt h)
    simp only [score_metric, if_neg h1, if_pos h2]
    field_simp

/-- Witness for `score_metric_threshold_values` at concrete thresholds. -/
theorem score_metric_threshold_values_witness :
    score_metric none 2 1 false = 50 ∧
    score_metric (some 2) 2 1 false = 100 ∧
    score_metric (some 1) 2 1 false = 70 ∧
    score_metric (some 2) 1 2 true = 70 :=
  ⟨(score_metric_threshold_values 2 1 false).1,
   (score_metric_threshold_values 2 1 false).2.1,
   (score_metric_threshold_values 2 1 false).2.2.1 (by norm_num),
   (score_metric_threshold_values 1 2 true).2.2.2 (by norm_num)⟩

/-! ### Sentiment aggregation (`backend/src/sentiment/analyzer.py`) -/

/-- A `SentimentScore` row (the columns used by the aggregator). -/
structure SentimentScoreRec where
  stock_id : ℕ
  sentiment_label : String
  sentiment_score : ℚ
  created_at : ℤ
deriving DecidableEq

/-- Return value of `aggregate_sentiment_score`.  The empty-window branch
of the Python dict has no `period_days` key, hence the `Option`. -/
structure SentimentAgg where
  average_score : ℚ
  score_0_100 : ℚ
  count : ℕ
  positive_count : ℕ
  negative_count : ℕ
  neutral_count : ℕ
  period_days : Option ℕ
deriving DecidableEq

/-- The query of analyzer lines 244-247: sentiment scores of the stock
created on or after the cutoff date.  Time is counted in days. -/
def sentiment_window (allScores : List SentimentScoreRec) (stock_id : ℕ)
    (cutoff_date : ℤ) : List SentimentScoreRec :=
  allScores.filter fun s => s.stock_id == stock_id && decide (cutoff_date ≤ s.created_at)

/-- Line 271 of the analyzer: conversion of the average sentiment in
[-1, 1] to the 0-100 scale. -/
def score0to100 (avg_score : ℚ) : ℚ := (avg_score + 1) * 50

/-- `SentimentAnalyzer.aggregate_sentiment_score` (lines 224-281),
over an explicit list of `SentimentScore` rows standing for the table. -/
def aggregate_sentiment_score (allScores : List SentimentScoreRec)
    (stock_id : ℕ) (now : ℤ) (days : ℕ) : SentimentAgg :=
  let cutoff_date := now - (days : ℤ)
  let scores := sentiment_window allScores stock_id cutoff_date
  if scores.isEmpty then
    { average_score := 0, score_0_100 := 50, count := 0,
      positive_count := 0, negative_count := 0, neutral_count := 0,
      period_days := none }
  else
    let positive := (scores.filter fun s => s.sentiment_label == "positive").length
    let negative := (scores.filter fun s => s.sentiment_label == "negative").length
    let neutral := (scores.filter fun s => s.sentiment_label == "neutral").length
    let avg_score := (scores.map (·.sentiment_score)).sum / (scores.length : ℚ)
    { average_score := round3 avg_score, score_0_100 := round2 (score0to100 avg_score),
      count := scores.length, positive_count := positive, negative_count := negative,
      neutral_count := neutral, period_days := some days }

/-- C7: an empty window yields the neutral defaults, as a normal result:
average 0, score 50, count 0, all three label counts 0. -/
theorem aggregate_sentiment_score_empty_window
    (allScores : List SentimentScoreRec) (stock_id : ℕ) (now : ℤ) (days : ℕ)
    (h : sentiment_window allScores stock_id (now - (days : ℤ)) = []) :
    aggregate_sentiment_score allScores stock_id now days =
      { average_score := 0, score_0_100 := 50, count := 0,
        positive_count := 0, negative_count := 0, neutral_count := 0,
        period_days := none } := by
  simp only [aggregate_sentiment_score]
  rw [h]
  rfl

/-- Witness for `aggregate_sentiment_score_empty_window`: a store holding
only an observation for another security. -/
theorem aggregate_sentiment_score_empty_window_witness :
    aggregate_sentiment_score [⟨2, "positive", 1, 0⟩] 1 0 30 =
      { average_score := 0, score_0_100 := 50, count := 0,
        positive_count := 0, negative_count := 0, neutral_count := 0,
        period_days := none } :=
  aggregate_sentiment_score_empty_window [⟨2, "positive", 1, 0⟩] 1 0 30 (by decide)

unseal Rat.mul Rat.add Rat.sub Rat.inv in
/-- C8: the averageScore-to-score0to100 map used by
`aggregate_sentiment_score` is the affine map `(averageScore + 1) * 50`;
after the presentation rounding it is monotonically non-decreasing and
exact at the endpoints, and every non-empty aggregation reports exactly
the rounded image of the window's mean under this map. -/
theorem score0to100_affine_monotone :
    (∀ a b : ℚ, a ≤ b → round2 (score0to100 a) ≤ round2 (score0to100 b)) ∧
    round2 (score0to100 (-1)) = 0 ∧
    round2 (score0to100 0) = 50 ∧
    round2 (score0to100 1) = 100 ∧
    (∀ (allScores : List SentimentScoreRec) (stock_id : ℕ) (now : ℤ) (days : ℕ),
      sentiment_window allScores stock_id (now - (days : ℤ)) ≠ [] →
      (aggregate_sentiment_score allScores stock_id now days).score_0_100 =
        round2 (score0to100
          (((sentiment_window allScores stock_id (now - (days : ℤ))).map
              (·.sentiment_score)).sum /
            ((sentiment_window allScores stock_id (now - (days : ℤ))).length : ℚ)))) := by
  refine ⟨?_, by decide, by decide, by decide, ?_⟩
  · intro a b h
    apply round2_mono
    unfold score0to100
    linarith
  · intro allScores stock_id now days h
    obtain ⟨y, ys, hys⟩ := List.exists_cons_of_ne_nil h
    simp only [aggregate_sentiment_score]
    rw [hys]
    simp only [List.isEmpty_cons, Bool.false_eq_true, if_false]

/-- Witness for `score0to100_affine_monotone` at concrete inputs. -/
theorem score0to100_affine_monotone_witness :
    round2 (score0to100 0) ≤ round2 (score0to100 1) ∧
    (aggregate_sentiment_score [⟨1, "positive", 1, 5⟩] 1 10 30).score_0_100 =
      round2 (score0to100
        (((sentiment_window [⟨1, "positive", 1, 5⟩] 1 (10 - (30 : ℤ))).map
            (·.sentiment_score)).sum /
          ((sentiment_window [⟨1, "positive", 1, 5⟩] 1 (10 - (30 : ℤ))).length : ℚ))) :=
  ⟨score0to100_affine_monotone.1 0 1 (by norm_num),
   score0to100_affine_monotone.2.2.2.2 [⟨1, "positive", 1, 5⟩] 1 10 30 (by decide)⟩

/-! ### Configuration validation (`backend/src/core/config.py`) -/

/-- Validation failures raised while constructing `Settings`. -/
inductive ConfigError
  | fieldOutOfRange
  | weightsSumInvalid (fundamental sentiment total : ℚ)
deriving DecidableEq

/-- The scoring weights of `Settings` (config.py lines 92-94). -/
structure WeightSettings where
  FUNDAMENTAL_WEIGHT : ℚ
  SENTIMENT_WEIGHT : ℚ
deriving DecidableEq

/-- The `weights_must_sum_to_one` field validator (config.py lines
96-108): rejects the sentiment weight when the two weights differ from 1
by more than 0.01. -/
def weights_must_sum_to_one (fundamental_weight v : ℚ) : Except ConfigError ℚ :=
  let total := fundamental_weight + v
  if |total - 1| > 1/100 then
    Except.error (ConfigError.weightsSumInvalid fundamental_weight v total)
  else Except.ok v

/-- Construction of the settings object with explicitly provided weights:
pydantic first checks the `ge=0, le=1` field bounds of each weight, then
runs the `weights_must_sum_to_one` validator on `SENTIMENT_WEIGHT`. -/
def mkSettings (fw sw : ℚ) : Except ConfigError WeightSettings :=
  if ¬ (0 ≤ fw ∧ fw ≤ 1) then Except.error ConfigError.fieldOutOfRange
  else if ¬ (0 ≤ sw ∧ sw ≤ 1) then Except.error ConfigError.fieldOutOfRange
  else
    match weights_must_sum_to_one fw sw with
    | Except.error e => Except.error e
    | Except.ok v => Except.ok ⟨fw, v⟩

/-- C5: whenever the provided weights differ from summing to 1 by more
than 0.01 the settings object cannot be constructed, and in particular
weights 0.6 and 0.45 (sum 1.05) are rejected by the sum validator. -/
theorem mkSettings_rejects_bad_weight_sum :
    (∀ fw sw : ℚ, |fw + sw - 1| > 1/100 →
      ∀ s : WeightSettings, mkSettings fw sw ≠ Except.ok s) ∧
    mkSettings (3/5) (9/20) =
      Except.error (ConfigError.weightsSumInvalid (3/5) (9/20) (21/20)) := by
  have key : ∀ fw sw : ℚ, |fw + sw - 1| > 1/100 →
      weights_must_sum_to_one fw sw =
        Except.error (ConfigError.weightsSumInvalid fw sw (fw + sw)) := by
    intro fw sw h
    simp only [weights_must_sum_to_one]
    rw [if_pos h]
  have habs : |(3/5 : ℚ) + 9/20 - 1| > 1/100 := by
    rw [show (3/5 : ℚ) + 9/20 - 1 = 1/20 by norm_num]
    exact lt_of_lt_of_le (by norm_num) (le_abs_self _)
  constructor
  · intro fw sw h s
    unfold mkSettings
    split_ifs with h1 h2 <;>
      first
        | exact fun hc => Except.noConfusion hc
        | (rw [key fw sw h]; exact fun hc => Except.noConfusion hc)
  · unfold mkSettings
    rw [if_neg (by norm_num), if_neg (by norm_num), key (3/5) (9/20) habs]
    norm_num

/-- Witness for `mkSettings_rejects_bad_weight_sum` at the claim's
concrete weights. -/
theorem mkSettings_rejects_bad_weight_sum_witness :
    ∀ s : WeightSettings, mkSettings (3/5) (9/20) ≠ Except.ok s :=
  mkSettings_rejects_bad_weight_sum.1 (3/5) (9/20)
    (by
      rw [show (3/5 : ℚ) + 9/20 - 1 = 1/20 by norm_num]
      exact lt_of_lt_of_le (by norm_num) (le_abs_self _))

/-! ### Ingestion framework (`backend/src/ingestion/base.py`) -/

/-- An `IngestionLog` row (the columns used by `run` and
`is_already_ingested`). -/
structure IngestionLog where
  ingestion_type : String
  source : String
  data_hash : String
  status : String
  records_fetched : ℕ
  records_inserted : ℕ
  records_updated : ℕ
  records_skipped : ℕ
deriving DecidableEq

/-- The metrics dictionary returned by `process_data`. -/
structure ProcessMetrics where
  fetched : ℕ
  inserted : ℕ
  updated : ℕ
  skipped : ℕ
deriving DecidableEq

/-- A `BaseIngestor` instance: the identifying fields together with the
subclass's `fetch_data` (its deterministic per-run result, `none` for a
falsy bundle), `compute_data_hash` (standing for `sha256(str(data))`) and
`process_data`. -/
structure Ingestor (Data : Type) where
  source : String
  ingestion_type : String
  fetch_data : Option Data
  compute_data_hash : Data → String
  process_data : Data → ProcessMetrics

/-- Return value of `BaseIngestor.run`. -/
structure RunResult where
  status : String
  metrics : Option ProcessMetrics
  data_hash : Option String
deriving DecidableEq

/-- `BaseIngestor.is_already_ingested` (base.py lines 124-141): true iff
an audit record exists with this ingestion type, this hash and status
"success". -/
def is_already_ingested {Data : Type} (ing : Ingestor Data) (data_hash : String)
    (logs : List IngestionLog) : Bool :=
  logs.any fun l =>
    l.ingestion_type == ing.ingestion_type && l.data_hash == data_hash &&
      l.status == "success"

/-- `BaseIngestor.run` (base.py lines 204-297) on the happy paths: the
falsy-bundle early return, the idempotency short-circuit and the
process-then-audit path.  The audit-log list plays the `ingestion_logs`
table; the returned pair is (run result, table afterwards). -/
def Ingestor.run {Data : Type} (ing : Ingestor Data) (logs : List IngestionLog) :
    RunResult × List IngestionLog :=
  match ing.fetch_data with
  | none =>
    ({ status := "success", metrics := some ⟨0, 0, 0, 0⟩, data_hash := none }, logs)
  | some data =>
    let data_hash := ing.compute_data_hash data
    if is_already_ingested ing data_hash logs then
      ({ status := "skipped", metrics := none, data_hash := some data_hash }, logs)
    else
      let metrics := ing.process_data data
      let log : IngestionLog :=
        { ingestion_type := ing.ingestion_type, source := ing.source,
          data_hash := data_hash, status := "success",
          records_fetched := metrics.fetched, records_inserted := metrics.inserted,
          records_updated := metrics.updated, records_skipped := metrics.skipped }
      ({ status := "success", metrics := some metrics, data_hash := some data_hash },
       logs ++ [log])

/-- A concrete ingestor fetching the bundle "bundle-a" whose fingerprint
already has a success audit record. -/
def ingestor_already_seen : Ingestor String :=
  { source := "yfinance", ingestion_type := "fundamental",
    fetch_data := some "bundle-a", compute_data_hash := fun d => d,
    process_data := fun _ => ⟨1, 1, 0, 0⟩ }

/-- The pre-existing audit table for `ingestor_already_seen`. -/
def logs_already_seen : List IngestionLog :=
  [{ ingestion_type := "fundamental", source := "yfinance",
     data_hash := "bundle-a", status := "success",
     records_fetched := 1, records_inserted := 1,
     records_updated := 0, records_skipped := 0 }]

/-- C3 counterexample: on the idempotency short-circuit the run reports
"skipped" but writes no audit entry at all — in particular no entry tagged
"skipped" exists afterwards, contradicting the claim. -/
theorem run_skip_writes_no_audit_entry :
    (ingestor_already_seen.run logs_already_seen).1.status = "skipped" ∧
    (ingestor_already_seen.run logs_already_seen).2 = logs_already_seen ∧
    ((ingestor_already_seen.run logs_already_seen).2.filter
        (fun l => l.status == "skipped")).length = 0 := by
  refine ⟨rfl, rfl, rfl⟩

/-- C3 (amended): when the fetched bundle's fingerprint already has a
success audit record of the same type, the run short-circuits with status
"skipped" and leaves the audit table untouched; and starting from a table
with no such record, running the same fetch twice yields "success" then
"skipped" with exactly one matching success audit record in the end. -/
theorem run_idempotency {Data : Type} (ing : Ingestor Data)
    (logs : List IngestionLog) (data : Data)
    (hfetch : ing.fetch_data = some data) :
    (is_already_ingested ing (ing.compute_data_hash data) logs = true →
      ing.run logs =
        ({ status := "skipped", metrics := none,
           data_hash := some (ing.compute_data_hash data) }, logs)) ∧
    (is_already_ingested ing (ing.compute_data_hash data) logs = false →
      (ing.run logs).1.status = "success" ∧
      (((ing.run logs).2).filter (fun l =>
          l.ingestion_type == ing.ingestion_type &&
            l.data_hash == ing.compute_data_hash data &&
            l.status == "success")).length = 1 ∧
      (ing.run ((ing.run logs).2)).1.status = "skipped" ∧
      (ing.run ((ing.run logs).2)).2 = (ing.run logs).2) := by
  have short : ∀ logs' : List IngestionLog,
      is_already_ingested ing (ing.compute_data_hash data) logs' = true →
      ing.run logs' =
        ({ status := "skipped", metrics := none,
           data_hash := some (ing.compute_data_hash data) }, logs') := by
    intro logs' h'
    simp only [Ingestor.run, hfetch, h', if_true]
  constructor
  · intro h
    exact short logs h
  · intro h
    have hfilter : (logs.filter (fun l =>
        l.ingestion_type == ing.ingestion_type &&
          l.data_hash == ing.compute_data_hash data &&
          l.status == "success")) = [] := by
      rw [List.filter_eq_nil_iff]
      intro l hl
      intro hcontra
      have : is_already_ingested ing (ing.compute_data_hash data) logs = true := by
        unfold is_already_ingested
        rw [List.any_eq_true]
        exact ⟨l, hl, hcontra⟩
      rw [h] at this
      exact Bool.noConfusion this
    have hrun1 : ing.run logs =
        ({ status := "success", metrics := some (ing.process_data data),
           data_hash := some (ing.compute_data_hash data) },
         logs ++ [⟨ing.ingestion_type, ing.source, ing.compute_data_hash data,
           "success", (ing.process_data data).fetched,
           (ing.process_data data).inserted, (ing.process_data data).updated,
           (ing.process_data data).skipped⟩]) := by
      simp only [Ingestor.run, hfetch, h, Bool.false_eq_true, if_false]
    have hseen : is_already_ingested ing (ing.compute_data_hash data)
        ((ing.run logs).2) = true := by
      rw [hrun1]
      unfold is_already_ingested
      rw [List.any_eq_true]
      refine ⟨_, List.mem_append_right logs (List.mem_singleton_self _), ?_⟩
      simp
    refine ⟨by rw [hrun1], ?_, ?_, ?_⟩
    · rw [hrun1]
      rw [List.filter_append, hfilter]
      simp
    · rw [short _ hseen]
    · rw [short _ hseen]

/-- A fresh ingestor for the witness: same fetch, empty audit table. -/
def ingestor_fresh : Ingestor String :=
  { source := "newsapi", ingestion_type := "news",
    fetch_data := some "bundle-b", compute_data_hash := fun d => d,
    process_data := fun _ => ⟨2, 2, 0, 0⟩ }

/-- Witness for `run_idempotency`: both branches at concrete inputs. -/
theorem run_idempotency_witness :
    (ingestor_already_seen.run logs_already_seen =
      ({ status := "skipped", metrics := none, data_hash := some "bundle-a" },
       logs_already_seen)) ∧
    ((ingestor_fresh.run []).1.status = "success" ∧
      (((ingestor_fresh.run []).2).filter (fun l =>
          l.ingestion_type == "news" && l.data_hash == "bundle-b" &&
            l.status == "success")).length = 1 ∧
      (ingestor_fresh.run ((ingestor_fresh.run []).2)).1.status = "skipped" ∧
      (ingestor_fresh.run ((ingestor_fresh.run []).2)).2 = (ingestor_fresh.run []).2) :=
  ⟨(run_idempotency ingestor_already_seen logs_already_seen "bundle-a" rfl).1 rfl,
   (run_idempotency ingestor_fresh [] "bundle-b" rfl).2 rfl⟩

/-- C10: a falsy fetched bundle makes `run` return "success" with all four
metric counts zero, no fingerprint, and the audit table untouched. -/
theorem run_empty_bundle {Data : Type} (ing : Ingestor Data)
    (logs : List IngestionLog) (h : ing.fetch_data = none) :
    ing.run logs =
      ({ status := "success", metrics := some ⟨0, 0, 0, 0⟩, data_hash := none },
       logs) := by
  simp only [Ingestor.run, h]

/-- An ingestor whose fetch produced a falsy bundle. -/
def ingestor_no_data : Ingestor String :=
  { source := "yfinance", ingestion_type := "fundamental",
    fetch_data := none, compute_data_hash := fun d => d,
    process_data := fun _ => ⟨3, 3, 0, 0⟩ }

/-- Witness for `run_empty_bundle`. -/
theorem run_empty_bundle_witness :
    ingestor_no_data.run logs_already_seen =
      ({ status := "success", metrics := some ⟨0, 0, 0, 0⟩, data_hash := none },
       logs_already_seen) :=
  run_empty_bundle ingestor_no_data logs_already_seen rfl

/-! ### Composite scorer (`backend/src/scoring/composite_scorer.py`) -/

/-- A `Stock` row (the columns used by the scorers). -/
structure Stock where
  id : ℕ
  symbol : String
  name : String
  is_active : Bool
deriving DecidableEq

/-- A persisted `CompositeScore` row. -/
structure CompositeScoreRecord where
  stock_id : ℕ
  fundamental_score : ℚ
  sentiment_score : ℚ
  composite_score : ℚ
  rank : ℕ
  score_date : ℤ
deriving DecidableEq

/-- The relational store as seen by the scorers: the four tables involved. -/
structure DB where
  stocks : List Stock
  fundamentals : List Fundamental
  sentiment_scores : List SentimentScoreRec
  composite_scores : List CompositeScoreRecord
deriving DecidableEq

/-- The `CompositeScorer` instance: the two weights it copies from the
settings in `__init__`. -/
structure CompositeScorer where
  fundamental_weight : ℚ
  sentiment_weight : ℚ
deriving DecidableEq

/-- The query of composite_scorer lines 63-65: the stock's fundamental row
with the greatest `data_date` (first one on ties), if any. -/
def latestFundamental (db : DB) (stock_id : ℕ) : Option Fundamental :=
  (db.fundamentals.filter (fun f => f.stock_id == stock_id)).foldl
    (fun acc f =>
      match acc with
      | none => some f
      | some g => if g.data_date < f.data_date then some f else some g)
    none

/-- Lines 84-87 of the composite scorer: the weighted blend. -/
def composite_of (fundamental_weight sentiment_weight
    fundamental_score sentiment_score : ℚ) : ℚ :=
  fundamental_weight * fundamental_score + sentiment_weight * sentiment_score

/-- The dict returned by `compute_composite_score` (lines 113-121); the
nested explainability breakdown is omitted, its top-level numbers being the
fields kept here. -/
structure CompositeResult where
  stock_id : ℕ
  symbol : String
  fundamental_score : ℚ
  sentiment_score : ℚ
  composite_score : ℚ
  score_date : ℤ
deriving DecidableEq

/-- `CompositeScorer.compute_composite_score` (lines 37-121): `none` when
the stock is missing or has no fundamental row, otherwise the rounded
fundamental, sentiment and blended scores. -/
def compute_composite_score (scorer : CompositeScorer) (db : DB) (now : ℤ)
    (stock_id : ℕ) (score_date : ℤ) : Option CompositeResult :=
  match db.stocks.find? (fun s => s.id == stock_id) with
  | none => none
  | some stock =>
    match latestFundamental db stock_id with
    | none => none
    | some latest_fundamental =>
      let fundamental_result := compute_fundamental_score latest_fundamental
      let fundamental_score := fundamental_result.total_score
      let sentiment_result := aggregate_sentiment_score db.sentiment_scores stock_id now 30
      let sentiment_score := sentiment_result.score_0_100
      let composite_score := composite_of scorer.fundamental_weight
        scorer.sentiment_weight fundamental_score sentiment_score
      some { stock_id := stock_id, symbol := stock.symbol,
             fundamental_score := round2 fundamental_score,
             sentiment_score := round2 sentiment_score,
             composite_score := round2 composite_score,
             score_date := score_date }

lemma round2_intCast (n : ℤ) : round2 (n : ℚ) = (n : ℚ) := by
  unfold round2
  rw [show ((n:ℚ) * 100) = ((n * 100 : ℤ) : ℚ) by push_cast; ring,
    roundHalfEven_intCast]
  push_cast
  exact mul_div_cancel_right₀ _ (by norm_num)

lemma round2_fifty : round2 (50 : ℚ) = 50 := by
  have h := round2_intCast 50
  simpa using h

lemma compute_fundamental_total_round2 (f : Fundamental) :
    round2 ((compute_fundamental_score f).total_score) =
      (compute_fundamental_score f).total_score := by
  simp only [compute_fundamental_score]
  exact round2_idem _

lemma aggregate_score_0_100_round2 (allScores : List SentimentScoreRec)
    (stock_id : ℕ) (now : ℤ) (days : ℕ) :
    round2 ((aggregate_sentiment_score allScores stock_id now days).score_0_100) =
      (aggregate_sentiment_score allScores stock_id now days).score_0_100 := by
  simp only [aggregate_sentiment_score]
  split_ifs
  · exact round2_fifty
  · exact round2_idem _

/-- C9: the stored composite score is the 2-decimal rounding of
`fundamentalWeight * fundamentalScore + sentimentWeight * sentimentScore`
applied to the stored sub-scores, and the claim's concrete instance
0.6 * 80 + 0.4 * 60 evaluates to exactly 72.0, also after rounding. -/
theorem composite_score_formula :
    (∀ (scorer : CompositeScorer) (db : DB) (now : ℤ) (stock_id : ℕ)
      (score_date : ℤ) (r : CompositeResult),
      compute_composite_score scorer db now stock_id score_date = some r →
      r.composite_score =
        round2 (composite_of scorer.fundamental_weight scorer.sentiment_weight
          r.fundamental_score r.sentiment_score)) ∧
    composite_of (3/5) (2/5) 80 60 = 72 ∧
    round2 (composite_of (3/5) (2/5) 80 60) = 72 := by
  refine ⟨?_, ?_, ?_⟩
  · intro scorer db now stock_id score_date r h
    simp only [compute_composite_score] at h
    cases hfind : db.stocks.find? (fun s => s.id == stock_id) with
    | none => rw [hfind] at h; exact Option.noConfusion h
    | some stock =>
      rw [hfind] at h
      cases hlf : latestFundamental db stock_id with
      | none => rw [hlf] at h; exact Option.noConfusion h
      | some latest_fundamental =>
        rw [hlf] at h
        have hr := Option.some.inj h
        rw [← hr]
        simp only
        rw [compute_fundamental_total_round2, aggregate_score_0_100_round2]
  · unfold composite_of; norm_num
  · rw [show composite_of (3/5) (2/5) 80 60 = 72 by unfold composite_of; norm_num,
      show (72 : ℚ) = ((72 : ℤ) : ℚ) by norm_num, round2_intCast]

/-- The default scorer weights (`FUNDAMENTAL_WEIGHT = 0.6`,
`SENTIMENT_WEIGHT = 0.4`). -/
def default_scorer : CompositeScorer := ⟨3/5, 2/5⟩

/-- A one-stock store whose only fundamental row is the ROE-only
snapshot. -/
def db_one : DB :=
  { stocks := [⟨1, "AAA", "Alpha", true⟩],
    fundamentals := [{ stock_id := 1, roe := some 20 }],
    sentiment_scores := [],
    composite_scores := [] }

unseal Rat.mul Rat.add Rat.sub Rat.inv in
/-- Witness for `composite_score_formula` at a concrete store. -/
theorem composite_score_formula_witness :
    compute_composite_score default_scorer db_one 0 1 5 =
      some ⟨1, "AAA", 6000, 50, 3620, 5⟩ ∧
    (⟨1, "AAA", 6000, 50, 3620, 5⟩ : CompositeResult).composite_score =
      round2 (composite_of (3/5) (2/5) 6000 50) :=
  ⟨by decide,
   composite_score_formula.1 default_scorer db_one 0 1 5 _ (by decide)⟩

/-- Line 143 of the composite scorer: the active securities. -/
def active_stocks (db : DB) : List Stock :=
  db.stocks.filter (fun s => s.is_active)

/-- The scoring loop of `score_all_stocks` (lines 148-164): iterates the
active securities, counts a result as scored and collects it, or counts a
skip when `compute_composite_score` returns `none`. -/
def collect_scores (scorer : CompositeScorer) (db : DB) (now score_date : ℤ) :
    ℕ × ℕ × List CompositeResult :=
  (active_stocks db).foldl
    (fun acc stock =>
      match compute_composite_score scorer db now stock.id score_date with
      | some score_data => (acc.1 + 1, acc.2.1, acc.2.2 ++ [score_data])
      | none => (acc.1, acc.2.1 + 1, acc.2.2))
    (0, 0, [])

/-- The sort key of line 167: descending by composite score.  A stable
sort with this relation is exactly Python's
`sort(key=composite_score, reverse=True)`. -/
def composite_desc (a b : CompositeResult) : Bool :=
  decide (b.composite_score ≤ a.composite_score)

/-- Return value of `score_all_stocks`; `scores` carries the rank assigned
by `enumerate(..., start=1)`, `records` the persisted batch. -/
structure ScoreAllResult where
  scored : ℕ
  skipped : ℕ
  errors : ℕ
  scores : List (ℕ × CompositeResult)
  records : List CompositeScoreRecord
deriving DecidableEq

/-- `CompositeScorer.score_all_stocks` (lines 123-200): collect, stable
sort descending by composite score, assign 1-based ranks by sorted
position, and persist every record under the batch `score_date`.  The
embedding has no exceptions, so `errors` is 0. -/
def score_all_stocks (scorer : CompositeScorer) (db : DB)
    (now score_date : ℤ) : ScoreAllResult :=
  let folded := collect_scores scorer db now score_date
  let sorted := folded.2.2.mergeSort composite_desc
  let ranked := sorted.enumFrom 1
  let records := ranked.map (fun p =>
    (⟨p.2.stock_id, p.2.fundamental_score, p.2.sentiment_score,
      p.2.composite_score, p.1, score_date⟩ : CompositeScoreRecord))
  { scored := folded.1, skipped := folded.2.1, errors := 0,
    scores := ranked, records := records }

lemma collect_scores_fold (scorer : CompositeScorer) (db : DB)
    (now score_date : ℤ) (l : List Stock) (a b : ℕ)
    (acc : List CompositeResult) :
    l.foldl
      (fun acc stock =>
        match compute_composite_score scorer db now stock.id score_date with
        | some score_data => (acc.1 + 1, acc.2.1, acc.2.2 ++ [score_data])
        | none => (acc.1, acc.2.1 + 1, acc.2.2))
      (a, b, acc) =
      (a + l.countP (fun s =>
        (compute_composite_score scorer db now s.id score_date).isSome),
       b + l.countP (fun s =>
        (compute_composite_score scorer db now s.id score_date).isNone),
       acc ++ l.filterMap (fun s =>
        compute_composite_score scorer db now s.id score_date)) := by
  induction l generalizing a b acc with
  | nil => simp
  | cons s t ih =>
    cases h : compute_composite_score scorer db now s.id score_date with
    | some r =>
      have hcS : (s :: t).countP (fun x =>
          (compute_composite_score scorer db now x.id score_date).isSome)
          = t.countP (fun x =>
            (compute_composite_score scorer db now x.id score_date).isSome) + 1 := by
        simp [List.countP_cons, h]
      have hcN : (s :: t).countP (fun x =>
          (compute_composite_score scorer db now x.id score_date).isNone)
          = t.countP (fun x =>
            (compute_composite_score scorer db now x.id score_date).isNone) := by
        simp [List.countP_cons, h]
      simp only [List.foldl_cons, h]
      rw [ih, hcS, hcN]
      simp only [List.filterMap_cons, h, Prod.mk.injEq]
      refine ⟨by ring_nf, by ring_nf, by simp⟩
    | none =>
      have hcS : (s :: t).countP (fun x =>
          (compute_composite_score scorer db now x.id score_date).isSome)
          = t.countP (fun x =>
            (compute_composite_score scorer db now x.id score_date).isSome) := by
        simp [List.countP_cons, h]
      have hcN : (s :: t).countP (fun x =>
          (compute_composite_score scorer db now x.id score_date).isNone)
          = t.countP (fun x =>
            (compute_composite_score scorer db now x.id score_date).isNone) + 1 := by
        simp [List.countP_cons, h]
      simp only [List.foldl_cons, h]
      rw [ih, hcS, hcN]
      simp only [List.filterMap_cons, h, Prod.mk.injEq]
      refine ⟨by ring_nf, by ring_nf, by simp⟩

lemma collect_scores_eq (scorer : CompositeScorer) (db : DB)
    (now score_date : ℤ) :
    collect_scores scorer db now score_date =
      ((active_stocks db).countP (fun s =>
          (compute_composite_score scorer db now s.id score_date).isSome),
       (active_stocks db).countP (fun s =>
          (compute_composite_score scorer db now s.id score_date).isNone),
       (active_stocks db).filterMap (fun s =>
          compute_composite_score scorer db now s.id score_date)) := by
  unfold collect_scores
  rw [collect_scores_fold]
  simp

lemma compute_composite_score_isNone_eq (scorer : CompositeScorer) (db : DB)
    (now score_date : ℤ) {s : Stock} (hs : s ∈ db.stocks) :
    (compute_composite_score scorer db now s.id score_date).isNone =
      (latestFundamental db s.id).isNone := by
  cases hf : db.stocks.find? (fun x => x.id == s.id) with
  | none =>
    exfalso
    have := List.find?_eq_none.mp hf s hs
    simp at this
  | some t =>
    simp only [compute_composite_score]
    rw [hf]
    cases hlf : latestFundamental db s.id <;> simp

lemma composite_desc_trans (a b c : CompositeResult)
    (hab : composite_desc a b = true) (hbc : composite_desc b c = true) :
    composite_desc a c = true := by
  simp only [composite_desc, decide_eq_true_eq] at hab hbc ⊢
  exact le_trans hbc hab

lemma composite_desc_total (a b : CompositeResult) :
    (composite_desc a b || composite_desc b a) = true := by
  simp only [composite_desc, Bool.or_eq_true, decide_eq_true_eq]
  exact le_total b.composite_score a.composite_score

/-- Securities of the store that the scoring loop skips: active but
without any fundamental snapshot. -/
def missing_snapshot_count (db : DB) : ℕ :=
  ((active_stocks db).filter (fun s => (latestFundamental db s.id).isNone)).length

/-- C4: over N active securities of which K have no fundamental snapshot,
`score_all_stocks` scores N-K and skips K; the scored entries come out
sorted descending by composite score by a stable sort (every class of
tied entries stays a sublist in collection order), carry the dense ranks
1..(N-K), and every persisted record carries the single batch
`score_date`. -/
theorem score_all_stocks_batch_properties (scorer : CompositeScorer)
    (db : DB) (now score_date : ℤ) :
    (score_all_stocks scorer db now score_date).scored
      = (active_stocks db).length - missing_snapshot_count db ∧
    (score_all_stocks scorer db now score_date).skipped
      = missing_snapshot_count db ∧
    (score_all_stocks scorer db now score_date).scores.length
      = (active_stocks db).length - missing_snapshot_count db ∧
    (score_all_stocks scorer db now score_date).records.length
      = (active_stocks db).length - missing_snapshot_count db ∧
    List.Pairwise (fun a b => b.composite_score ≤ a.composite_score)
      ((score_all_stocks scorer db now score_date).scores.map Prod.snd) ∧
    (∀ c : ℚ,
      (((collect_scores scorer db now score_date).2.2).filter
          (fun r => r.composite_score == c)).Sublist
        ((score_all_stocks scorer db now score_date).scores.map Prod.snd)) ∧
    (score_all_stocks scorer db now score_date).scores.map Prod.fst
      = List.range' 1 ((active_stocks db).length - missing_snapshot_count db) ∧
    (score_all_stocks scorer db now score_date).records.map (fun r => r.rank)
      = List.range' 1 ((active_stocks db).length - missing_snapshot_count db) ∧
    (score_all_stocks scorer db now score_date).records.all
      (fun r => r.score_date == score_date) = true := by
  have hK : missing_snapshot_count db =
      (active_stocks db).countP (fun s =>
        (compute_composite_score scorer db now s.id score_date).isNone) := by
    unfold missing_snapshot_count
    rw [← List.countP_eq_length_filter]
    exact (List.countP_congr (fun x hx => by
      rw [compute_composite_score_isNone_eq scorer db now score_date
        (List.mem_filter.mp hx).1])).symm
  have hsome : (active_stocks db).countP (fun s =>
        (compute_composite_score scorer db now s.id score_date).isSome)
      = (active_stocks db).length - missing_snapshot_count db := by
    have hsplit := List.length_eq_countP_add_countP (fun s =>
      (compute_composite_score scorer db now s.id score_date).isSome)
      (active_stocks db)
    have hnot : (active_stocks db).countP (fun s => decide
        ¬ ((compute_composite_score scorer db now s.id score_date).isSome = true))
        = (active_stocks db).countP (fun s =>
          (compute_composite_score scorer db now s.id score_date).isNone) :=
      List.countP_congr (fun x hx => by
        cases hc : compute_composite_score scorer db now x.id score_date <;>
          simp [hc])
    rw [hnot] at hsplit
    omega
  have hcollect := collect_scores_eq scorer db now score_date
  have hlen_collected :
      ((collect_scores scorer db now score_date).2.2).length
        = (active_stocks db).length - missing_snapshot_count db := by
    rw [hcollect]
    simp only
    rw [List.length_filterMap_eq_countP]
    exact hsome
  have hsorted_len :
      (((collect_scores scorer db now score_date).2.2).mergeSort
        composite_desc).length
        = (active_stocks db).length - missing_snapshot_count db := by
    rw [List.length_mergeSort]
    exact hlen_collected
  refine ⟨?_, ?_, ?_, ?_, ?_, ?_, ?_, ?_, ?_⟩
  · show (collect_scores scorer db now score_date).1 = _
    rw [hcollect]
    exact hsome
  · show (collect_scores scorer db now score_date).2.1 = _
    rw [hcollect]
    exact hK.symm
  · show ((((collect_scores scorer db now score_date).2.2).mergeSort
      composite_desc).enumFrom 1).length = _
    rw [List.enumFrom_length]
    exact hsorted_len
  · show (((((collect_scores scorer db now score_date).2.2).mergeSort
      composite_desc).enumFrom 1).map _).length = _
    rw [List.length_map, List.enumFrom_length]
    exact hsorted_len
  · show List.Pairwise _ (((((collect_scores scorer db now score_date).2.2).mergeSort
      composite_desc).enumFrom 1).map Prod.snd)
    rw [List.enumFrom_map_snd]
    exact (List.sorted_mergeSort composite_desc_trans composite_desc_total
      ((collect_scores scorer db now score_date).2.2)).imp
      (by intro a b hab; simpa [composite_desc] using hab)
  · intro c
    show (_ : List CompositeResult).Sublist
      (((((collect_scores scorer db now score_date).2.2).mergeSort
        composite_desc).enumFrom 1).map Prod.snd)
    rw [List.enumFrom_map_snd]
    refine List.sublist_mergeSort composite_desc_trans composite_desc_total
      ?_ (List.filter_sublist _)
    refine List.pairwise_of_forall_mem_list ?_
    intro a ha b hb
    have ha' := (List.mem_filter.mp ha).2
    have hb' := (List.mem_filter.mp hb).2
    simp only [beq_iff_eq] at ha' hb'
    simp only [composite_desc, decide_eq_true_eq, ha', hb']
    exact le_refl c
  · show ((((collect_scores scorer db now score_date).2.2).mergeSort
      composite_desc).enumFrom 1).map Prod.fst = _
    rw [List.enumFrom_map_fst, hsorted_len]
  · show (((((collect_scores scorer db now score_date).2.2).mergeSort
      composite_desc).enumFrom 1).map (fun p : ℕ × CompositeResult =>
        (⟨p.2.stock_id, p.2.fundamental_score, p.2.sentiment_score,
          p.2.composite_score, p.1, score_date⟩ : CompositeScoreRecord))).map
      (fun r => r.rank) = _
    rw [List.map_map]
    show ((((collect_scores scorer db now score_date).2.2).mergeSort
      composite_desc).enumFrom 1).map Prod.fst = _
    rw [List.enumFrom_map_fst, hsorted_len]
  · rw [List.all_eq_true]
    intro r hr
    show _ = true
    have := List.mem_map.mp hr
    obtain ⟨p, _, hp⟩ := this
    rw [← hp]
    simp

/-- The sort key of `get_top_stocks` lines 219-224: `score_date`
descending, then `rank` ascending. -/
def top_stocks_order (a b : CompositeScoreRecord) : Bool :=
  decide (b.score_date < a.score_date) ||
    (a.score_date == b.score_date && decide (a.rank ≤ b.rank))

/-- The query of `CompositeScorer.get_top_stocks` (lines 219-229): join
with `Stock`, keep active securities, optionally filter by a minimum
composite score, order by `score_date` descending then `rank` ascending,
and take at most `limit` rows.  There is no restriction to the most recent
`score_date`. -/
def top_stocks_query (db : DB) (limit : ℕ)
    (min_composite_score : Option ℚ) : List CompositeScoreRecord :=
  let rows := db.composite_scores.filter
    (fun score => db.stocks.any (fun s => s.id == score.stock_id && s.is_active))
  let rows : List CompositeScoreRecord := match min_composite_score with
    | some m => rows.filter (fun score => decide (m ≤ score.composite_score))
    | none => rows
  (rows.mergeSort top_stocks_order).take limit

/-- One dict of the list built by `get_top_stocks` lines 231-243. -/
structure TopStockEntry where
  rank : ℕ
  symbol : String
  name : String
  fundamental_score : ℚ
  sentiment_score : ℚ
  composite_score : ℚ
  score_date : ℤ
deriving DecidableEq

/-- `CompositeScorer.get_top_stocks` (lines 202-245): the query rows mapped
to response dicts, looking the stock back up per row (the join guarantees
the lookup succeeds for every returned row). -/
def get_top_stocks (db : DB) (limit : ℕ)
    (min_composite_score : Option ℚ) : List TopStockEntry :=
  (top_stocks_query db limit min_composite_score).map fun score =>
    let stock := db.stocks.find? (fun s => s.id == score.stock_id)
    { rank := score.rank,
      symbol := ((stock.map (fun s => s.symbol)).getD ""),
      name := ((stock.map (fun s => s.name)).getD ""),
      fundamental_score := score.fundamental_score,
      sentiment_score := score.sentiment_score,
      composite_score := score.composite_score,
      score_date := score.score_date }

/-- A store with two active securities: the older batch (scoreDate 0)
ranked stock 2 at composite 95, the newer batch (scoreDate 1) holds only
stock 1 at composite 90. -/
def db_two_batches : DB :=
  { stocks := [⟨1, "AAA", "Alpha", true⟩, ⟨2, "BBB", "Beta", true⟩],
    fundamentals := [],
    sentiment_scores := [],
    composite_scores :=
      [⟨2, 95, 50, 95, 1, 0⟩, ⟨1, 90, 50, 90, 1, 1⟩] }

unseal List.mergeSort List.merge in
/-- C6 counterexample: with limit 2 the query returns a record of the
stale scoreDate 0 although the most recent scoreDate is 1, and the
returned composite scores 90, 95 are not in descending order — the claim's
"only the most recent scoreDate" and "ordered by the requested score field
descending" both fail. -/
theorem top_stocks_query_returns_stale_date :
    (top_stocks_query db_two_batches 2 none).map
        (fun r => (r.composite_score, r.score_date)) =
      [(90, 1), (95, 0)] ∧
    1 ∈ (db_two_batches.composite_scores.map (fun r => r.score_date)) := by
  refine ⟨by decide, by decide⟩

lemma top_stocks_order_trans (a b c : CompositeScoreRecord)
    (hab : top_stocks_order a b = true) (hbc : top_stocks_order b c = true) :
    top_stocks_order a c = true := by
  simp only [top_stocks_order, Bool.or_eq_true, Bool.and_eq_true,
    decide_eq_true_eq, beq_iff_eq] at hab hbc ⊢
  omega

lemma top_stocks_order_total (a b : CompositeScoreRecord) :
    (top_stocks_order a b || top_stocks_order b a) = true := by
  simp only [top_stocks_order, Bool.or_eq_true, Bool.and_eq_true,
    decide_eq_true_eq, beq_iff_eq]
  omega

/-- C6 (amended): the top-N query keeps only records of active securities,
orders them by scoreDate descending with ties broken by rank ascending,
and returns at most N of them; it does not restrict to the most recent
scoreDate, so older records fill up the list when the latest batch has
fewer than N. -/
theorem top_stocks_query_properties (db : DB) (limit : ℕ)
    (min_composite_score : Option ℚ) :
    (get_top_stocks db limit min_composite_score).length ≤ limit ∧
    (top_stocks_query db limit min_composite_score).length ≤ limit ∧
    (top_stocks_query db limit min_composite_score).all
      (fun score => db.stocks.any
        (fun s => s.id == score.stock_id && s.is_active)) = true ∧
    List.Pairwise
      (fun a b => b.score_date < a.score_date ∨
        (a.score_date = b.score_date ∧ a.rank ≤ b.rank))
      (top_stocks_query db limit min_composite_score) := by
  have hlen : (top_stocks_query db limit min_composite_score).length ≤ limit := by
    unfold top_stocks_query
    cases min_composite_score <;>
      simp [List.length_take]
  refine ⟨?_, hlen, ?_, ?_⟩
  · unfold get_top_stocks
    rw [List.length_map]
    exact hlen
  · rw [List.all_eq_true]
    intro score hscore
    unfold top_stocks_query at hscore
    have hmem := List.take_subset _ _ hscore
    have hmem2 := (List.mergeSort_perm _ top_stocks_order).subset hmem
    cases min_composite_score with
    | none =>
      exact (List.mem_filter.mp hmem2).2
    | some m =>
      exact (List.mem_filter.mp (List.mem_filter.mp hmem2).1).2
  · unfold top_stocks_query
    refine List.Pairwise.sublist (List.take_sublist _ _) ?_
    refine (List.sorted_mergeSort top_stocks_order_trans
      top_stocks_order_total _).imp ?_
    intro a b hab
    simp only [top_stocks_order, Bool.or_eq_true, Bool.and_eq_true,
      decide_eq_true_eq, beq_iff_eq] at hab
    tauto
